import Mathlib

/-!
# TimeGrid: the grid of coloured squares of the explanation visualiser

A shallow embedding of `src/vis/src/TimeGrid.js`.

* JavaScript objects and arrays indexed by integers are partial maps from
  integer keys to values (`JsObj`): an absent key reads as `undefined`
  (`none`), an assignment defines or overwrites one key.
* A statement that can throw returns `Except JsError _`.  `handleClick`
  mutates the grid in place, so that what it has written survives an
  exception: it returns an `Outcome`, the grid it leaves together with the
  exception, if any.
* `squareColor` and `changedSquares` are imported from `./util`, and the trace
  `mockData` from `./data.json`; they are parameters (`sc`, `cs`, `md`) of the
  definitions that use them.
-/

namespace TimeGrid

/-! ## Values -/

/-- Exceptions: the `TypeError` raised by a property access or assignment on
`undefined`, and whatever the imported `changedSquares` may throw. -/
inductive JsError where
  | typeError
  | raised (msg : String)
  deriving DecidableEq, Repr

/-- An object (or array) whose keys are integers: `none` is `undefined`. -/
abbrev JsObj (α : Type) := Int → Option α

/-- The literal `{}`, and the literal `[]`. -/
def JsObj.empty {α : Type} : JsObj α := fun _ => none

/-- The assignment `o[k] = v`. -/
def JsObj.set {α : Type} (o : JsObj α) (k : Int) (v : α) : JsObj α :=
  fun k' => if k' = k then some v else o k'

/-- One row of squares, `squares[tp]`: column index to colour. -/
abbrev SquareRow := JsObj String

/-- The state `squares`: time point to row. -/
abbrev Grid := JsObj SquareRow

/-- The expression `xs[i]` on an array literal of the trace: `undefined`
outside `0 .. xs.length - 1`. -/
def index {α : Type} (xs : List α) (i : Int) : Option α :=
  if 0 ≤ i then xs[i.toNat]? else none

/-- An explanation tree.  `TimeGrid.js` reads its `type` only; the rest of the
node is handed to `changedSquares`. -/
inductive Explanation where
  | node (type : String) (rest : List Explanation)
  deriving Repr

/-- The field `explanation.type`. -/
def Explanation.type : Explanation → String
  | .node t _ => t

/-- One entry of `mockData.explanations`. -/
structure Entry where
  tp : Int
  ts : Int
  explanation : Explanation
  deriving Repr

/-- One entry of `mockData.subformulas`; `TimeGrid.js` only passes the list on
to `changedSquares`. -/
structure Subformula where
  id : String
  label : String
  deriving DecidableEq, Repr

/-- The trace `mockData` loaded from `./data.json`. -/
structure MockData where
  columns : List String
  subformulas : List Subformula
  explanations : List Entry
  deriving Repr

/-- One element of the list returned by `changedSquares`. -/
structure Update where
  tp : Int
  col : Int
  color : String
  deriving DecidableEq, Repr

/-- The imported `squareColor`. -/
abbrev SquareColor := String → String

/-- The imported `changedSquares(explanation, subformulas)`; it may throw. -/
abbrev ChangedSquares := Explanation → List Subformula → Except JsError (List Update)

/-- What a handler leaves behind: the grid, mutated in place, and the
exception that ended it, if any. -/
structure Outcome where
  squares : Grid
  error : Option JsError

/-! ## Reading a square -/

/-- The expression `squares[tp][col]` of the two `renderCell`s: a `TypeError`
when `squares[tp]` is `undefined`, else the colour or `undefined`. -/
def readSquare (squares : Grid) (tp col : Int) : Except JsError (Option String) :=
  match squares tp with
  | none => .error .typeError
  | some row => .ok (row col)

/-! ## `initSquares` -/

/-- The body of the inner loop of `initSquares` at column `j`, on the row
object `squares[tp]`. -/
def initSquare (sc : SquareColor) (md : MockData) (tp : Nat) (row : SquareRow) (j : Nat) :
    Except JsError SquareRow :=
  if j = 0 then
    match index md.explanations tp with
    | none => .error .typeError
    | some e => .ok (row.set j (sc e.explanation.type))
  else .ok (row.set j "primary")

/-- The inner loop `for (let j = 0; j < columns.length; ++j)` on a fresh `{}`. -/
def initRow (sc : SquareColor) (md : MockData) (columns : List String) (tp : Nat) :
    Except JsError SquareRow :=
  (List.range columns.length).foldlM (initSquare sc md tp) JsObj.empty

/-- The function `initSquares(explanationsLength, columns)`: the outer loop
`for (let tp = 0; tp < explanationsLength; ++tp)` on a fresh `[]`. -/
def initSquares (sc : SquareColor) (md : MockData) (explanationsLength : Nat)
    (columns : List String) : Except JsError Grid :=
  (List.range explanationsLength).foldlM
    (fun squares tp => do
      let row ← initRow sc md columns tp
      pure (squares.set tp row))
    JsObj.empty

/-- The initial state `initSquares(mockData.explanations.length, mockData.columns)`. -/
def initState (sc : SquareColor) (md : MockData) : Except JsError Grid :=
  initSquares sc md md.explanations.length md.columns

/-! ## `handleClick` -/

/-- The loop body `squares[chSquares[i].tp][chSquares[i].col] = chSquares[i].color`:
a `TypeError` when `squares[tp]` is `undefined`, else the row object is
updated in place. -/
def writeSquare (squares : Grid) (u : Update) : Except JsError Grid :=
  match squares u.tp with
  | none => .error .typeError
  | some row => .ok (squares.set u.tp (row.set u.col u.color))

/-- The loop `for (let i = 0; i < chSquares.length; ++i)` of `handleClick`:
the writes made before an exception stay in the grid. -/
def writeLoop : List Update → Grid → Outcome
  | [], squares => ⟨squares, none⟩
  | u :: us, squares =>
    match writeSquare squares u with
    | .error e => ⟨squares, some e⟩
    | .ok squares' => writeLoop us squares'

/-- A row handed to the data grid (the constant fields `f0` .. `f3` are
left out). -/
structure GridRow where
  id : Nat
  tp : Int
  ts : Int
  deriving DecidableEq, Repr

/-- The argument `params` of a `renderCell`: `params.row` and
`params.colDef.field`. -/
structure Params where
  row : GridRow
  field : String
  deriving DecidableEq, Repr

/-- The handler `handleClick(params, tp, formString)` run on the state
`squares`.  `mockData.explanations[tp].explanation` throws when the entry is
`undefined`; `setSquares(squares)` republishes the same, mutated, object. -/
def handleClick (md : MockData) (cs : ChangedSquares) (_params : Params) (tp : Int)
    (_formString : String) (squares : Grid) : Outcome :=
  match index md.explanations tp with
  | none => ⟨squares, some .typeError⟩
  | some e =>
    match cs e.explanation md.subformulas with
    | .error err => ⟨squares, some err⟩
    | .ok chSquares => writeLoop chSquares squares

/-! ## Rows, columns and the `Square` component -/

/-- The props of `Square`: `value` and `onClick` (`none` is `undefined`). -/
structure SquareProps where
  value : Option String
  onClick : Option (Grid → Outcome)

/-- A click on the button rendered by `Square(props)`: it runs
`props.onClick`, and does nothing when there is none. -/
def clickSquare (props : SquareProps) (squares : Grid) : Outcome :=
  match props.onClick with
  | none => ⟨squares, none⟩
  | some handler => handler squares

/-- A column descriptor of the data grid. -/
structure ColDef where
  field : String
  headerName : String
  width : Nat
  renderCell : Option (Params → Except JsError SquareProps)

/-- The `length` of a JavaScript string, in UTF-16 code units. -/
def jsLength (s : String) : Nat :=
  (s.toList.map fun c => if c.toNat < 65536 then 1 else 2).sum

/-- The `renderCell` of the root-formula column:
`<Square value={squares[params.row.tp][0]} onClick={() => handleClick(...)} />`. -/
def renderRootCell (md : MockData) (cs : ChangedSquares) (squares : Grid) (params : Params) :
    Except JsError SquareProps := do
  let value ← readSquare squares params.row.tp 0
  pure { value := value, onClick := some (handleClick md cs params params.row.tp params.field) }

/-- The `renderCell` of the `i`-th subformula column:
`<Square value={squares[params.row.tp][i+1]} />`. -/
def renderSubCell (squares : Grid) (i : Nat) (params : Params) : Except JsError SquareProps := do
  let value ← readSquare squares params.row.tp (i + 1)
  pure { value := value, onClick := none }

/-- The array `fixedColumns`; `mockData.columns[0].length` throws when there
is no column. -/
def fixedColumns (md : MockData) (cs : ChangedSquares) (squares : Grid) :
    Except JsError (List ColDef) :=
  match md.columns[0]? with
  | none => .error .typeError
  | some c0 =>
    .ok [ { field := "tp", headerName := "TP", width := 55, renderCell := none },
          { field := "ts", headerName := "TS", width := 55, renderCell := none },
          { field := c0, headerName := c0, width := 10 * jsLength c0,
            renderCell := some (renderRootCell md cs squares) } ]

/-- The array `dynamicColumns = mockData.columns.slice(1).map((f, i) => ...)`. -/
def dynamicColumns (md : MockData) (squares : Grid) : List ColDef :=
  (md.columns.drop 1).mapIdx fun i f =>
    { field := f, headerName := f, width := 10 * jsLength f,
      renderCell := some (renderSubCell squares i) }

/-- The columns handed to the data grid, `fixedColumns.concat(dynamicColumns)`. -/
def gridColumns (md : MockData) (cs : ChangedSquares) (squares : Grid) :
    Except JsError (List ColDef) := do
  let fixed ← fixedColumns md cs squares
  pure (fixed ++ dynamicColumns md squares)

/-- The array `rows = mockData.explanations.map((p, i) => ...)`. -/
def rows (md : MockData) : List GridRow :=
  md.explanations.mapIdx fun i p => { id := i, tp := p.tp, ts := p.ts }

/-- A click on the cell of column `d` in the row of `params`: the cell is
rendered by `d.renderCell` (a column without one shows plain text) and the
click goes to its `Square`. -/
def clickCell (d : ColDef) (params : Params) (squares : Grid) : Except JsError Outcome :=
  match d.renderCell with
  | none => .ok ⟨squares, none⟩
  | some render => do
    let props ← render params
    pure (clickSquare props squares)

/-! ## Reset -/

/-- Modelled from the spec: the handler `handleReset` that `ResetButton`
receives as a prop is not in `src/`.  By the spec (4.6, 6) Reset calls
`initialize(trace)`: it republishes a fresh `initSquares` grid, whatever the
current state; should the initializer throw, the state stays as it is. -/
def handleReset (sc : SquareColor) (md : MockData) (squares : Grid) : Outcome :=
  match initSquares sc md md.explanations.length md.columns with
  | .error e => ⟨squares, some e⟩
  | .ok fresh => ⟨fresh, none⟩

/-- A sequence of clicks on root-formula cells, by the `tp` of the clicked
row, each handled to completion (also by an exception) before the next. -/
def runClicks (md : MockData) (cs : ChangedSquares) : List Params → Grid → Grid
  | [], squares => squares
  | p :: ps, squares => runClicks md cs ps (handleClick md cs p p.row.tp p.field squares).squares

/-! ## Closed forms of the loops, used by the proofs -/

/-- The row object that the inner loop of `initSquares` has built after `m`
rounds, when the root explanation of the row has type `t`. -/
def rowAfter (sc : SquareColor) (t : String) (m : Nat) : SquareRow :=
  fun k => if 0 ≤ k ∧ k < (m : Int) then (if k = 0 then some (sc t) else some "primary") else none

/-- The grid that the outer loop of `initSquares` has built after `n` rounds. -/
def gridAfter (sc : SquareColor) (md : MockData) (columns : List String) (n : Nat) : Grid :=
  fun k =>
    if 0 ≤ k ∧ k < (n : Int) then
      (md.explanations[k.toNat]?).map fun e => rowAfter sc e.explanation.type columns.length
    else none

/-- An update addresses the square `(tp, col)`. -/
def Update.hits (u : Update) (tp col : Int) : Prop := u.tp = tp ∧ u.col = col

instance (u : Update) (tp col : Int) : Decidable (u.hits tp col) := by
  unfold Update.hits; infer_instance

/-- The colour of the last update of the list that addresses `(tp, col)`. -/
def lastWrite : List Update → Int → Int → Option String
  | [], _, _ => none
  | u :: us, tp, col =>
    match lastWrite us tp col with
    | some c => some c
    | none => if u.hits tp col then some u.color else none

/-- A square once a colour may have been written over it. -/
def overlay (w old : Option String) : Option String :=
  match w with
  | some c => some c
  | none => old

/-- The grid with every update of the list written, in order; rows that do
not exist stay undefined. -/
def written (us : List Update) (squares : Grid) : Grid :=
  fun tp => (squares tp).map fun row col => overlay (lastWrite us tp col) (row col)

/-- The row `squares[u.tp]` exists. -/
def rowExists (squares : Grid) (u : Update) : Bool := (squares u.tp).isSome

/-! ## Sample traces -/

/-- A sample `squareColor`. -/
def sampleColor : SquareColor := fun t =>
  if t = "V" then "red" else if t = "S" then "green" else "primary"

/-- A trace of six time points over the columns `f0`, `f1`, `f2`: the root of
`tp = 5` is violated, and its explanation has one child, a violation that
belongs to `tp = 3`. -/
def sampleData : MockData :=
  { columns := ["f0", "f1", "f2"]
    subformulas := [⟨"f1", "A"⟩, ⟨"f2", "B"⟩]
    explanations :=
      [ ⟨0, 1, .node "S" []⟩, ⟨1, 2, .node "S" []⟩, ⟨2, 4, .node "S" []⟩,
        ⟨3, 5, .node "V" []⟩, ⟨4, 8, .node "S" []⟩, ⟨5, 9, .node "V" [.node "V" []]⟩ ] }

/-- A sample `changedSquares`: the violation below a root is shown in column 2
of row 3. -/
def sampleChanged : ChangedSquares := fun e _ =>
  match e with
  | .node _ [] => .ok []
  | .node _ (_ :: _) => .ok [⟨3, 2, "red"⟩]

/-- The sample trace once initialized. -/
def sampleGrid : Grid := gridAfter sampleColor sampleData sampleData.columns 6

/-- A trace of one time point without any column. -/
def bareData : MockData :=
  { columns := [], subformulas := [], explanations := [⟨0, 1, .node "V" []⟩] }

/-- A trace of one time point over two columns. -/
def smallData : MockData :=
  { columns := ["f0", "f1"], subformulas := [⟨"f1", "A"⟩],
    explanations := [⟨0, 1, .node "V" []⟩] }

/-- The one-row trace once initialized. -/
def smallGrid : Grid := gridAfter sampleColor smallData smallData.columns 1

/-- A `changedSquares` that colours one square twice. -/
def twiceChanged : ChangedSquares := fun _ _ => .ok [⟨0, 1, "red"⟩, ⟨0, 1, "green"⟩]

/-- A `changedSquares` whose second update addresses a row that is not there. -/
def strayChanged : ChangedSquares := fun _ _ => .ok [⟨0, 1, "red"⟩, ⟨7, 0, "red"⟩]

/-- A `changedSquares` that throws. -/
def failingChanged : ChangedSquares := fun _ _ => .error (.raised "MalformedExplanation")

/-- A trace whose only entry is labelled with time point 5. -/
def sparseData : MockData :=
  { columns := ["f0", "f1"], subformulas := [], explanations := [⟨5, 1, .node "V" []⟩] }

end TimeGrid

/-! # Theorems -/

namespace TimeGrid

/-! ## Objects -/

theorem JsObj.set_same {α : Type} (o : JsObj α) (k : Int) (v : α) : o.set k v k = some v := by
  simp [JsObj.set]

theorem JsObj.set_other {α : Type} (o : JsObj α) {k k' : Int} (v : α) (h : k' ≠ k) :
    o.set k v k' = o k' := by
  simp [JsObj.set, h]

theorem index_natCast {α : Type} (xs : List α) (i : Nat) : index xs (i : Int) = xs[i]? := by
  simp [index]

theorem index_eq_none {α : Type} (xs : List α) (i : Int) :
    index xs i = none ↔ i < 0 ∨ (xs.length : Int) ≤ i := by
  unfold index
  split
  · rw [List.getElem?_eq_none_iff]; omega
  · simp; omega

/-! ## The initializer -/

theorem initRow_loop (sc : SquareColor) (md : MockData) (tp : Nat) (e : Entry)
    (he : md.explanations[tp]? = some e) (m : Nat) :
    (List.range m).foldlM (initSquare sc md tp) JsObj.empty
      = .ok (rowAfter sc e.explanation.type m) := by
  induction m with
  | zero =>
    show Except.ok _ = Except.ok _
    congr 1
    funext k
    simp only [JsObj.empty, rowAfter]
    rw [if_neg]
    omega
  | succ m ih =>
    rw [List.range_succ, List.foldlM_append, ih]
    simp only [List.foldlM_cons, List.foldlM_nil, initSquare, index_natCast, he]
    split
    all_goals
      show Except.ok _ = Except.ok _
      congr 1
      funext k
      simp only [JsObj.set, rowAfter]
      split_ifs <;> first | rfl | omega

theorem rowAfter_zero (sc : SquareColor) (t : String) {m : Nat} (hm : 0 < m) :
    rowAfter sc t m 0 = some (sc t) := by
  simp only [rowAfter]
  split_ifs <;> first | rfl | omega

theorem rowAfter_pos (sc : SquareColor) (t : String) {m c : Nat} (hc : 0 < c) (hm : c < m) :
    rowAfter sc t m c = some "primary" := by
  simp only [rowAfter]
  split_ifs <;> first | rfl | omega

theorem rowAfter_outside (sc : SquareColor) (t : String) {m : Nat} {k : Int}
    (hk : k < 0 ∨ (m : Int) ≤ k) : rowAfter sc t m k = none := by
  simp only [rowAfter]
  split_ifs <;> first | rfl | omega

theorem initRow_eq (sc : SquareColor) (md : MockData) (columns : List String) (tp : Nat)
    (e : Entry) (he : md.explanations[tp]? = some e) :
    initRow sc md columns tp = .ok (rowAfter sc e.explanation.type columns.length) :=
  initRow_loop sc md tp e he columns.length

theorem initSquares_loop (sc : SquareColor) (md : MockData) (columns : List String) (n : Nat)
    (hn : n ≤ md.explanations.length) :
    initSquares sc md n columns = .ok (gridAfter sc md columns n) := by
  unfold initSquares
  induction n with
  | zero =>
    show Except.ok _ = Except.ok _
    congr 1
    funext k
    simp only [JsObj.empty, gridAfter]
    rw [if_neg]
    omega
  | succ n ih =>
    have hlt : n < md.explanations.length := by omega
    rw [List.range_succ, List.foldlM_append, ih (by omega)]
    simp only [List.foldlM_cons, List.foldlM_nil,
      initRow_eq sc md columns n _ (List.getElem?_eq_getElem hlt)]
    show Except.ok _ = Except.ok _
    congr 1
    funext k
    simp only [JsObj.set, gridAfter]
    by_cases hk : k = (n : Int)
    · subst hk
      have h2 : 0 ≤ (n : Int) ∧ (n : Int) < ((n + 1 : Nat) : Int) := by omega
      rw [if_pos rfl, if_pos h2]
      simp [List.getElem?_eq_getElem hlt]
    · rw [if_neg hk]
      split_ifs <;> first | rfl | omega

theorem initState_eq (sc : SquareColor) (md : MockData) :
    initState sc md = .ok (gridAfter sc md md.columns md.explanations.length) :=
  initSquares_loop sc md md.columns md.explanations.length (Nat.le_refl _)

theorem gridAfter_row (sc : SquareColor) (md : MockData) (columns : List String) {n tp : Nat}
    (hn : n ≤ md.explanations.length) (h : tp < n) :
    gridAfter sc md columns n tp
      = some (rowAfter sc (md.explanations[tp]).explanation.type columns.length) := by
  have h1 : 0 ≤ (tp : Int) ∧ (tp : Int) < (n : Int) := by omega
  have h2 : tp < md.explanations.length := by omega
  simp only [gridAfter, if_pos h1, Int.toNat_ofNat, List.getElem?_eq_getElem h2, Option.map_some']

theorem gridAfter_outside (sc : SquareColor) (md : MockData) (columns : List String) {n : Nat}
    {k : Int} (hk : k < 0 ∨ (n : Int) ≤ k) : gridAfter sc md columns n k = none := by
  simp only [gridAfter]
  rw [if_neg]
  omega

theorem readSquare_of_row {squares : Grid} {tp : Int} {row : SquareRow}
    (h : squares tp = some row) (col : Int) : readSquare squares tp col = .ok (row col) := by
  simp only [readSquare, h]

theorem readSquare_of_none {squares : Grid} {tp : Int} (h : squares tp = none) (col : Int) :
    readSquare squares tp col = .error .typeError := by
  simp only [readSquare, h]

/-- C1, amended: on a trace of `n` explanations, `initSquares(n, columns)`
returns a grid in which, for every `tp < n`, every square `(tp, c)` with
`0 < c < columns.length` is `"primary"` and, when there is a column at all,
square `(tp, 0)` is `squareColor` of the type of the root explanation of
`explanations[tp]`; with an empty column list row `tp` is the empty object:
every square of it, `(tp, 0)` included, is `undefined`. -/
theorem initSquares_law (sc : SquareColor) (md : MockData) (columns : List String) :
    ∃ g, initSquares sc md md.explanations.length columns = .ok g ∧
      ∀ (tp : Nat) (h : tp < md.explanations.length),
        (columns ≠ [] →
          readSquare g tp 0 = .ok (some (sc (md.explanations[tp]).explanation.type))) ∧
        (∀ c : Nat, 0 < c → c < columns.length → readSquare g tp c = .ok (some "primary")) ∧
        (columns = [] → ∀ k : Int, readSquare g tp k = .ok none) := by
  refine ⟨_, initSquares_loop sc md columns _ (Nat.le_refl _),
    fun tp h => ⟨fun hcol => ?_, ?_, ?_⟩⟩
  · rw [readSquare_of_row (gridAfter_row sc md columns (Nat.le_refl _) h)]
    have hpos : 0 < columns.length := List.length_pos.mpr hcol
    have := rowAfter_zero sc (md.explanations[tp]).explanation.type hpos
    exact congrArg Except.ok this
  · intro c hc hlt
    rw [readSquare_of_row (gridAfter_row sc md columns (Nat.le_refl _) h),
      rowAfter_pos sc _ hc hlt]
  · intro hnil k
    subst hnil
    rw [readSquare_of_row (gridAfter_row sc md [] (Nat.le_refl _) h)]
    have hout : k < 0 ∨ ((([] : List String).length : Nat) : Int) ≤ k := by
      simp only [List.length_nil, Nat.cast_zero]
      omega
    exact congrArg Except.ok (rowAfter_outside sc _ hout)

/-- C1 on the sample trace: row 5 has a violated root, square `(3, 2)` is
neutral; and on the trace without a column square `(0, 0)` is `undefined`. -/
theorem initSquares_law_witness :
    (∃ g, initSquares sampleColor sampleData 6 ["f0", "f1", "f2"] = .ok g ∧
      readSquare g 5 0 = .ok (some "red") ∧ readSquare g 3 2 = .ok (some "primary")) ∧
    (∃ g, initSquares sampleColor bareData 1 [] = .ok g ∧ readSquare g 0 0 = .ok none) := by
  obtain ⟨g, hg, h⟩ := initSquares_law sampleColor sampleData sampleData.columns
  obtain ⟨g', hg', h'⟩ := initSquares_law sampleColor bareData []
  exact ⟨⟨g, hg, (h 5 (by decide)).1 (by decide), (h 3 (by decide)).2.1 2 (by decide) (by decide)⟩,
    ⟨g', hg', (h' 0 (by decide)).2.2 rfl 0⟩⟩

/-- C1 as stated fails without a column: `initSquares(1, [])` returns `[{}]`,
where square `(0, 0)` is `undefined` and not `squareColor("V")`. -/
theorem initSquares_no_column :
    ∃ g, initSquares sampleColor bareData bareData.explanations.length [] = .ok g ∧
      readSquare g 0 0 = .ok none ∧
      readSquare g 0 0 ≠ .ok (some (sampleColor (bareData.explanations[0]).explanation.type)) :=
  ⟨_, rfl, rfl, fun h => by cases h⟩


/-! ## The write loop -/

theorem lastWrite_eq_none {us : List Update} {tp col : Int} :
    lastWrite us tp col = none ↔ ∀ u ∈ us, ¬ u.hits tp col := by
  induction us with
  | nil => simp [lastWrite]
  | cons u us ih =>
    simp only [lastWrite, List.mem_cons, forall_eq_or_imp]
    cases hl : lastWrite us tp col with
    | some c =>
      have : ¬ ∀ v ∈ us, ¬ v.hits tp col := fun h => by rw [ih.mpr h] at hl; cases hl
      simp [this]
    | none =>
      have := ih.mp hl
      by_cases hu : u.hits tp col
      · simp [hu]
      · simpa [hu] using this

theorem lastWrite_mem {us : List Update} {tp col : Int} {c : String}
    (h : lastWrite us tp col = some c) : ∃ u ∈ us, u.hits tp col ∧ u.color = c := by
  induction us with
  | nil => simp [lastWrite] at h
  | cons u us ih =>
    simp only [lastWrite] at h
    cases hl : lastWrite us tp col with
    | some c' =>
      rw [hl] at h
      cases h
      obtain ⟨v, hv, hh, hc⟩ := ih hl
      exact ⟨v, List.mem_cons_of_mem _ hv, hh, hc⟩
    | none =>
      rw [hl] at h
      by_cases hu : u.hits tp col
      · simp only [hu, if_true] at h
        exact ⟨u, List.mem_cons_self _ _, hu, Option.some.inj h⟩
      · simp [hu] at h

theorem lastWrite_append (us vs : List Update) (tp col : Int) :
    lastWrite (us ++ vs) tp col = overlay (lastWrite vs tp col) (lastWrite us tp col) := by
  induction us with
  | nil =>
    simp only [List.nil_append, lastWrite]
    cases lastWrite vs tp col <;> rfl
  | cons u us ih =>
    rw [List.cons_append]
    simp only [lastWrite]
    rw [ih]
    cases lastWrite vs tp col <;> simp [overlay]

theorem written_nil (squares : Grid) : written [] squares = squares := by
  funext tp
  simp only [written, lastWrite, overlay]
  cases squares tp <;> rfl

theorem written_isSome (us : List Update) (squares : Grid) (tp : Int) :
    (written us squares tp).isSome = (squares tp).isSome := by
  simp only [written]
  cases squares tp <;> rfl

theorem written_cons (u : Update) (us : List Update) (squares : Grid) (row : SquareRow)
    (h : squares u.tp = some row) :
    written us (squares.set u.tp (row.set u.col u.color)) = written (u :: us) squares := by
  funext tp
  simp only [written, JsObj.set, lastWrite]
  by_cases htp : tp = u.tp
  · subst htp
    simp only [if_true, h, Option.map_some']
    congr 1
    funext col
    cases lastWrite us u.tp col with
    | some c => rfl
    | none =>
      simp only [overlay, Update.hits, true_and]
      by_cases hc : col = u.col
      · subst hc; simp [JsObj.set]
      · have : ¬ u.col = col := fun h => hc h.symm
        simp [JsObj.set, hc, this]
  · simp only [if_neg htp]
    cases squares tp with
    | none => rfl
    | some r =>
      simp only [Option.map_some']
      congr 1
      funext col
      cases lastWrite us tp col with
      | some c => rfl
      | none =>
        have : ¬ u.hits tp col := fun hh => htp hh.1.symm
        simp [overlay, this]

theorem rowExists_set (squares : Grid) (u : Update) (row row' : SquareRow)
    (h : squares u.tp = some row) :
    rowExists (squares.set u.tp row') = rowExists squares := by
  funext v
  simp only [rowExists, JsObj.set]
  by_cases hv : v.tp = u.tp
  · simp [hv, h]
  · simp [hv]

/-- The write loop in closed form: it writes the updates that come before the
first one whose row does not exist, and throws at that one. -/
theorem writeLoop_eq (us : List Update) (squares : Grid) :
    writeLoop us squares =
      ⟨written (us.takeWhile (rowExists squares)) squares,
        if us.all (rowExists squares) then none else some .typeError⟩ := by
  induction us generalizing squares with
  | nil => simp [writeLoop, written_nil]
  | cons u us ih =>
    simp only [writeLoop, writeSquare]
    cases h : squares u.tp with
    | none =>
      have hr : rowExists squares u = false := by simp [rowExists, h]
      simp [List.takeWhile, hr, written_nil]
    | some row =>
      have hr : rowExists squares u = true := by simp [rowExists, h]
      simp only [ih, rowExists_set squares u row _ h, List.takeWhile, hr, List.all_cons,
        Bool.true_and, written_cons u _ squares row h]

theorem writeLoop_of_rows {us : List Update} {squares : Grid}
    (h : ∀ u ∈ us, squares u.tp ≠ none) : writeLoop us squares = ⟨written us squares, none⟩ := by
  have hall : ∀ u ∈ us, rowExists squares u = true := fun u hu => by
    simp only [rowExists]
    exact Option.isSome_iff_ne_none.mpr (h u hu)
  rw [writeLoop_eq, List.takeWhile_eq_self_iff.mpr hall, List.all_eq_true.mpr hall]
  rfl


theorem writeLoop_append (pre rest : List Update) (squares : Grid)
    (h : ∀ v ∈ pre, squares v.tp ≠ none) :
    (writeLoop pre squares).error = none ∧
      writeLoop (pre ++ rest) squares = writeLoop rest (writeLoop pre squares).squares := by
  induction pre generalizing squares with
  | nil => exact ⟨rfl, rfl⟩
  | cons v pre ih =>
    have hv := h v (List.mem_cons_self _ _)
    cases hrow : squares v.tp with
    | none => exact absurd hrow hv
    | some row =>
      have hnext : ∀ w ∈ pre, (squares.set v.tp (row.set v.col v.color)) w.tp ≠ none := by
        intro w hw
        simp only [JsObj.set]
        split
        · simp
        · exact h w (List.mem_cons_of_mem _ hw)
      simpa only [List.cons_append, writeLoop, writeSquare, hrow] using ih _ hnext

theorem readSquare_written (us : List Update) (squares : Grid) (tp col : Int) :
    readSquare (written us squares) tp col =
      match readSquare squares tp col with
      | .ok old => .ok (overlay (lastWrite us tp col) old)
      | .error e => .error e := by
  simp only [readSquare, written]
  cases squares tp <;> rfl

theorem readSquare_written_of_none {us : List Update} {squares : Grid} {tp col : Int}
    (h : lastWrite us tp col = none) :
    readSquare (written us squares) tp col = readSquare squares tp col := by
  rw [readSquare_written, h]
  cases readSquare squares tp col <;> rfl

theorem readSquare_written_of_some {us : List Update} {squares : Grid} {tp col : Int}
    {c : String} (h : lastWrite us tp col = some c) (hrow : squares tp ≠ none) :
    readSquare (written us squares) tp col = .ok (some c) := by
  rw [readSquare_written, h]
  cases hr : squares tp with
  | none => exact absurd hr hrow
  | some row => simp [readSquare, hr, overlay]

/-- The last update that addresses a square, by its index in the list. -/
theorem lastWrite_index {us : List Update} {tp col : Int} (h : ∃ u ∈ us, u.hits tp col) :
    ∃ (i : Nat) (hi : i < us.length), us[i].hits tp col ∧
      (∀ (j : Nat) (hj : j < us.length), us[j].hits tp col → j ≤ i) ∧
      lastWrite us tp col = some us[i].color := by
  induction us with
  | nil => simp at h
  | cons u us ih =>
    cases hl : lastWrite us tp col with
    | some c =>
      obtain ⟨v, hv, hh, _⟩ := lastWrite_mem hl
      obtain ⟨i, hi, hhit, hmax, hcol⟩ := ih ⟨v, hv, hh⟩
      refine ⟨i + 1, by simp only [List.length_cons]; omega, ?_, ?_, ?_⟩
      · simpa using hhit
      · intro j hj hjh
        cases j with
        | zero => omega
        | succ j =>
          have := hmax j (by simp only [List.length_cons] at hj; omega) (by simpa using hjh)
          omega
      · simp only [lastWrite, hcol, List.getElem_cons_succ]
    | none =>
      have hno := lastWrite_eq_none.mp hl
      obtain ⟨v, hv, hh⟩ := h
      have hu : u.hits tp col := by
        rcases List.mem_cons.mp hv with rfl | hv'
        · exact hh
        · exact absurd hh (hno v hv')
      refine ⟨0, by simp, by simpa using hu, ?_, ?_⟩
      · intro j hj hjh
        cases j with
        | zero => omega
        | succ j =>
          simp only [List.getElem_cons_succ] at hjh
          exact absurd hjh (hno _ (List.getElem_mem _))
      · simp [lastWrite, hl, hu]

theorem lastWrite_of_agree {us : List Update} (i : Nat) (hi : i < us.length)
    (hlater : ∀ (j : Nat) (hj : j < us.length), i < j → us[j].hits us[i].tp us[i].col →
      us[j].color = us[i].color) :
    lastWrite us us[i].tp us[i].col = some us[i].color := by
  obtain ⟨m, hm, hhit, hmax, hcol⟩ :=
    @lastWrite_index us us[i].tp us[i].col ⟨us[i], List.getElem_mem _, rfl, rfl⟩
  have hle := hmax i hi ⟨rfl, rfl⟩
  rcases Nat.lt_or_eq_of_le hle with hlt | heq
  · rw [hcol, hlater m hm hlt hhit]
  · subst heq
    exact hcol

theorem written_written (us : List Update) (squares : Grid) :
    written us (written us squares) = written us squares := by
  funext tp
  simp only [written]
  cases squares tp with
  | none => rfl
  | some row =>
    simp only [Option.map_some']
    congr 1
    funext col
    cases lastWrite us tp col <;> rfl

theorem rowExists_written (us : List Update) (squares : Grid) :
    rowExists (written us squares) = rowExists squares := by
  funext v
  simp only [rowExists, written_isSome]

theorem writeLoop_idem (us : List Update) (squares : Grid) :
    writeLoop us (writeLoop us squares).squares = writeLoop us squares := by
  rw [writeLoop_eq us squares]
  simp only
  rw [writeLoop_eq us (written _ squares), rowExists_written, written_written]

theorem writeLoop_isSome (us : List Update) (squares : Grid) (tp : Int) :
    ((writeLoop us squares).squares tp).isSome = (squares tp).isSome := by
  rw [writeLoop_eq]
  exact written_isSome _ _ _

theorem handleClick_isSome (md : MockData) (cs : ChangedSquares) (params : Params) (tp : Int)
    (fs : String) (squares : Grid) (k : Int) :
    ((handleClick md cs params tp fs squares).squares k).isSome = (squares k).isSome := by
  unfold handleClick
  cases index md.explanations tp with
  | none => rfl
  | some e =>
    cases hc : cs e.explanation md.subformulas with
    | error err => simp only [hc]
    | ok us =>
      simp only [hc]
      exact writeLoop_isSome us squares k

theorem runClicks_isSome (md : MockData) (cs : ChangedSquares) (clicks : List Params)
    (squares : Grid) (k : Int) :
    (runClicks md cs clicks squares k).isSome = (squares k).isSome := by
  induction clicks generalizing squares with
  | nil => rfl
  | cons p ps ih =>
    simp only [runClicks]
    rw [ih, handleClick_isSome]

theorem handleClick_of_updates {md : MockData} {cs : ChangedSquares} {tp : Int} {e : Entry}
    {us : List Update} (he : index md.explanations tp = some e)
    (hus : cs e.explanation md.subformulas = .ok us) (params : Params) (fs : String)
    (squares : Grid) : handleClick md cs params tp fs squares = writeLoop us squares := by
  simp only [handleClick, he, hus]


theorem lastWrite_perm {us us' : List Update} (hp : us'.Perm us)
    (hagree : ∀ u ∈ us, ∀ v ∈ us, u.tp = v.tp → u.col = v.col → u.color = v.color)
    (tp col : Int) : lastWrite us' tp col = lastWrite us tp col := by
  cases h : lastWrite us tp col with
  | none =>
    rw [lastWrite_eq_none] at h ⊢
    exact fun u hu => h u (hp.mem_iff.mp hu)
  | some c =>
    obtain ⟨u, hu, hhit, hc⟩ := lastWrite_mem h
    cases h' : lastWrite us' tp col with
    | none => exact absurd hhit (lastWrite_eq_none.mp h' u (hp.mem_iff.mpr hu))
    | some c' =>
      obtain ⟨v, hv, hvhit, hvc⟩ := lastWrite_mem h'
      have := hagree v (hp.mem_iff.mp hv) u hu (hvhit.1.trans hhit.1.symm)
        (hvhit.2.trans hhit.2.symm)
      rw [← hvc, this, hc]

theorem written_perm {us us' : List Update} (hp : us'.Perm us)
    (hagree : ∀ u ∈ us, ∀ v ∈ us, u.tp = v.tp → u.col = v.col → u.color = v.color)
    (squares : Grid) : written us' squares = written us squares := by
  funext tp
  simp only [written]
  congr 1
  funext row col
  rw [lastWrite_perm hp hagree]

theorem written_moved_last {us : List Update} {w : Update} (hw : w ∈ us) {c : String}
    (hc : lastWrite us w.tp w.col = some c) (hne : w.color ≠ c) {squares : Grid}
    (hrow : squares w.tp ≠ none) :
    (us.erase w ++ [w]).Perm us ∧ written (us.erase w ++ [w]) squares ≠ written us squares := by
  refine ⟨(List.perm_append_singleton w _).trans (List.perm_cons_erase hw).symm, fun heq => ?_⟩
  have h1 : lastWrite (us.erase w ++ [w]) w.tp w.col = some w.color := by
    rw [lastWrite_append]
    simp [lastWrite, Update.hits, overlay]
  have h2 := readSquare_written_of_some h1 hrow
  rw [heq, readSquare_written_of_some hc hrow] at h2
  exact hne (Option.some.inj (Except.ok.inj h2)).symm


/-! ## Clicks -/

/-- C2, amended: when the list returned by `changedSquares` for a click
addresses existing rows only, `handleClick` ends without an exception, and
every update `(tp, col, color)` of the list that no later update of the same
square contradicts has square `(tp, col)` equal to `color` afterwards. -/
theorem handleClick_writes (md : MockData) (cs : ChangedSquares) (params : Params) (tp : Int)
    (fs : String) (g : Grid) (e : Entry) (us : List Update)
    (he : index md.explanations tp = some e)
    (hus : cs e.explanation md.subformulas = .ok us)
    (hrows : ∀ u ∈ us, g u.tp ≠ none)
    (i : Nat) (hi : i < us.length)
    (hlater : ∀ (j : Nat) (hj : j < us.length), i < j →
      us[j].tp = us[i].tp → us[j].col = us[i].col → us[j].color = us[i].color) :
    (handleClick md cs params tp fs g).error = none ∧
      readSquare (handleClick md cs params tp fs g).squares us[i].tp us[i].col
        = .ok (some us[i].color) := by
  rw [handleClick_of_updates he hus, writeLoop_of_rows hrows]
  refine ⟨rfl, readSquare_written_of_some ?_ (hrows _ (List.getElem_mem _))⟩
  exact lastWrite_of_agree i hi fun j hj hij hhit => hlater j hj hij hhit.1 hhit.2

/-- C2 on the sample trace: the click on row 5 colours square `(3, 2)`. -/
theorem handleClick_writes_witness :
    readSquare (handleClick sampleData sampleChanged ⟨⟨5, 5, 9⟩, "f0"⟩ 5 "f0" sampleGrid).squares
      3 2 = .ok (some "red") :=
  (handleClick_writes sampleData sampleChanged ⟨⟨5, 5, 9⟩, "f0"⟩ 5 "f0" sampleGrid
    ⟨5, 9, .node "V" [.node "V" []]⟩ [⟨3, 2, "red"⟩] rfl rfl
    (fun u hu => by
      rw [List.mem_singleton.mp hu]
      exact fun h => by cases h)
    0 (by decide)
    (fun j hj hij => by simp only [List.length_singleton] at hj; omega)).2

/-- C2 as stated fails twice: of two updates of one square only the later
colour stays, and an update of a row that does not exist is not written (the
click throws). -/
theorem handleClick_drops_updates :
    initState sampleColor smallData = .ok smallGrid ∧
    twiceChanged (.node "V" []) smallData.subformulas
      = .ok [⟨0, 1, "red"⟩, ⟨0, 1, "green"⟩] ∧
    readSquare (handleClick smallData twiceChanged ⟨⟨0, 0, 1⟩, "f0"⟩ 0 "f0" smallGrid).squares
      0 1 = .ok (some "green") ∧
    strayChanged (.node "V" []) smallData.subformulas
      = .ok [⟨0, 1, "red"⟩, ⟨7, 0, "red"⟩] ∧
    readSquare (handleClick smallData strayChanged ⟨⟨0, 0, 1⟩, "f0"⟩ 0 "f0" smallGrid).squares
      7 0 = .error .typeError :=
  ⟨initState_eq sampleColor smallData, rfl, rfl, rfl, rfl⟩

/-- C3: a click leaves every square that no update of the list returned by
`changedSquares` addresses exactly as it was, also when the click throws. -/
theorem handleClick_frame (md : MockData) (cs : ChangedSquares) (params : Params) (tp : Int)
    (fs : String) (g : Grid) (k c : Int)
    (hframe : ∀ e us, index md.explanations tp = some e →
      cs e.explanation md.subformulas = .ok us → ∀ u ∈ us, ¬ (u.tp = k ∧ u.col = c)) :
    readSquare (handleClick md cs params tp fs g).squares k c = readSquare g k c := by
  cases he : index md.explanations tp with
  | none => simp only [handleClick, he]
  | some e =>
    cases hus : cs e.explanation md.subformulas with
    | error err => simp only [handleClick, he, hus]
    | ok us =>
      rw [handleClick_of_updates he hus, writeLoop_eq]
      apply readSquare_written_of_none
      rw [lastWrite_eq_none]
      intro u hu
      exact hframe e us he hus u (List.takeWhile_subset _ hu)

/-- C3 on the sample trace: the click on row 5 leaves the root square of
row 3 as it was. -/
theorem handleClick_frame_witness :
    readSquare (handleClick sampleData sampleChanged ⟨⟨5, 5, 9⟩, "f0"⟩ 5 "f0" sampleGrid).squares
      3 0 = readSquare sampleGrid 3 0 :=
  handleClick_frame sampleData sampleChanged ⟨⟨5, 5, 9⟩, "f0"⟩ 5 "f0" sampleGrid 3 0
    (fun e us he hus u hu => by
      have he' : e = ⟨5, 9, .node "V" [.node "V" []]⟩ := (Option.some.inj he).symm
      subst he'
      have hus' : us = [⟨3, 2, "red"⟩] := (Except.ok.inj hus).symm
      subst hus'
      rw [List.mem_singleton.mp hu]
      decide)

/-- C4: running the write loop of `handleClick` a second time on the same
list changes nothing, neither the grid nor the outcome; in particular so when
every update addresses an existing row. -/
theorem writeLoop_twice (us : List Update) (g : Grid) :
    writeLoop us (writeLoop us g).squares = writeLoop us g ∧
      (writeLoop us (writeLoop us g).squares).squares = (writeLoop us g).squares :=
  ⟨writeLoop_idem us g, congrArg Outcome.squares (writeLoop_idem us g)⟩

/-- C6, amended: a click whose `changedSquares` throws leaves the grid as it
was; a click that throws at an update of a row that does not exist leaves the
grid with the updates before that one written, and none from it on. -/
theorem handleClick_failure (md : MockData) (cs : ChangedSquares) (params : Params) (tp : Int)
    (fs : String) (g : Grid) (e : Entry) (he : index md.explanations tp = some e) :
    (∀ err, cs e.explanation md.subformulas = .error err →
      handleClick md cs params tp fs g = ⟨g, some err⟩) ∧
    (∀ pre u post, cs e.explanation md.subformulas = .ok (pre ++ u :: post) →
      (∀ v ∈ pre, g v.tp ≠ none) → g u.tp = none →
      (writeLoop pre g).error = none ∧
        handleClick md cs params tp fs g = ⟨(writeLoop pre g).squares, some .typeError⟩) := by
  refine ⟨fun err herr => by simp only [handleClick, he, herr], ?_⟩
  intro pre u post hus hpre hu
  obtain ⟨hok, happ⟩ := writeLoop_append pre (u :: post) g hpre
  refine ⟨hok, ?_⟩
  rw [handleClick_of_updates he hus, happ]
  have hrow : (writeLoop pre g).squares u.tp = none := by
    have := writeLoop_isSome pre g u.tp
    rw [hu] at this
    exact Option.not_isSome_iff_eq_none.mp (by rw [this]; simp)
  simp only [writeLoop, writeSquare, hrow]

/-- C6 on the one-row trace: a throwing traversal changes nothing, and the
stray update stops the loop after the first write. -/
theorem handleClick_failure_witness :
    handleClick smallData failingChanged ⟨⟨0, 0, 1⟩, "f0"⟩ 0 "f0" smallGrid
      = ⟨smallGrid, some (.raised "MalformedExplanation")⟩ ∧
    handleClick smallData strayChanged ⟨⟨0, 0, 1⟩, "f0"⟩ 0 "f0" smallGrid
      = ⟨(writeLoop [⟨0, 1, "red"⟩] smallGrid).squares, some .typeError⟩ :=
  ⟨(handleClick_failure smallData failingChanged ⟨⟨0, 0, 1⟩, "f0"⟩ 0 "f0" smallGrid
      ⟨0, 1, .node "V" []⟩ rfl).1 _ rfl,
   ((handleClick_failure smallData strayChanged ⟨⟨0, 0, 1⟩, "f0"⟩ 0 "f0" smallGrid
      ⟨0, 1, .node "V" []⟩ rfl).2 [⟨0, 1, "red"⟩] ⟨7, 0, "red"⟩ [] rfl
      (fun v hv => by
        rw [List.mem_singleton.mp hv]
        exact fun h => by cases h)
      rfl).2⟩

/-- C6 as stated fails: the click throws at the stray update, and square
`(0, 1)`, neutral before, is red afterwards. -/
theorem handleClick_not_atomic :
    initState sampleColor smallData = .ok smallGrid ∧
    (handleClick smallData strayChanged ⟨⟨0, 0, 1⟩, "f0"⟩ 0 "f0" smallGrid).error
      = some .typeError ∧
    readSquare smallGrid 0 1 = .ok (some "primary") ∧
    readSquare (handleClick smallData strayChanged ⟨⟨0, 0, 1⟩, "f0"⟩ 0 "f0" smallGrid).squares
      0 1 = .ok (some "red") :=
  ⟨initState_eq sampleColor smallData, rfl, rfl, rfl⟩


/-- C7, amended: for a `tp` at or beyond the end of `explanations`, a click
handled for `tp` throws a `TypeError` before `changedSquares` is called and
leaves the grid as it was; and after any clicks on the initialized grid,
reading a square of row `tp` throws a `TypeError` as well: the grid has no
such row. -/
theorem missing_row_throws (sc : SquareColor) (md : MockData) (cs : ChangedSquares) (tp : Int)
    (htp : (md.explanations.length : Int) ≤ tp) :
    (∀ params fs g, handleClick md cs params tp fs g = ⟨g, some .typeError⟩) ∧
    ∃ g0, initState sc md = .ok g0 ∧
      ∀ clicks c, readSquare (runClicks md cs clicks g0) tp c = .error .typeError := by
  have hidx : index md.explanations tp = none := (index_eq_none _ _).mpr (Or.inr htp)
  refine ⟨fun params fs g => by simp only [handleClick, hidx], _, initState_eq sc md, ?_⟩
  intro clicks c
  apply readSquare_of_none
  have h := runClicks_isSome md cs clicks (gridAfter sc md md.columns md.explanations.length) tp
  rw [gridAfter_outside sc md md.columns (Or.inr htp)] at h
  exact Option.not_isSome_iff_eq_none.mp (by rw [h]; simp)

/-- C7 on the trace whose only entry is labelled 5: the click for `tp = 5`
throws and changes nothing. -/
theorem missing_row_throws_witness :
    handleClick sparseData sampleChanged ⟨⟨0, 5, 1⟩, "f0"⟩ 5 "f0" JsObj.empty
      = ⟨JsObj.empty, some .typeError⟩ :=
  (missing_row_throws sampleColor sparseData sampleChanged 5 (by decide)).1 _ _ _

/-- C7 as stated fails: the only row of this trace carries `tp = 5`, where
`explanations` has no entry; the click on its root square throws, and so does
the read of that square for rendering. -/
theorem missing_row_is_fatal :
    rows sparseData = [⟨0, 5, 1⟩] ∧
    index sparseData.explanations 5 = none ∧
    ∃ g, initState sampleColor sparseData = .ok g ∧
      (handleClick sparseData sampleChanged ⟨⟨0, 5, 1⟩, "f0"⟩ 5 "f0" g).error
        = some .typeError ∧
      readSquare g 5 0 = .error .typeError :=
  ⟨rfl, rfl, _, rfl, rfl, rfl⟩

/-- C10: when every update addresses an existing row, the write loop of
`handleClick` leaves each square that some update addresses with the colour
of the update of greatest index among those addressing it; and some
reordering of the list gives another grid exactly when two updates address
one square with different colours. -/
theorem last_write_wins (us : List Update) (g : Grid) (hrows : ∀ u ∈ us, g u.tp ≠ none) :
    (∀ tp col, (∃ u ∈ us, u.tp = tp ∧ u.col = col) →
      ∃ (i : Nat) (hi : i < us.length), (us[i].tp = tp ∧ us[i].col = col) ∧
        (∀ (j : Nat) (hj : j < us.length), us[j].tp = tp ∧ us[j].col = col → j ≤ i) ∧
        readSquare (writeLoop us g).squares tp col = .ok (some us[i].color)) ∧
    ((∃ us', us'.Perm us ∧ (writeLoop us' g).squares ≠ (writeLoop us g).squares) ↔
      ∃ u ∈ us, ∃ v ∈ us, u.tp = v.tp ∧ u.col = v.col ∧ u.color ≠ v.color) := by
  constructor
  · intro tp col hex
    obtain ⟨i, hi, hhit, hmax, hcol⟩ := @lastWrite_index us tp col hex
    refine ⟨i, hi, hhit, hmax, ?_⟩
    obtain ⟨u, hu, hutp, _⟩ := hex
    rw [writeLoop_of_rows hrows]
    exact readSquare_written_of_some hcol (hutp ▸ hrows u hu)
  · constructor
    · rintro ⟨us', hp, hne⟩
      by_contra hno
      apply hne
      have hagree : ∀ u ∈ us, ∀ v ∈ us, u.tp = v.tp → u.col = v.col → u.color = v.color := by
        intro u hu v hv h1 h2
        by_contra h3
        exact hno ⟨u, hu, v, hv, h1, h2, h3⟩
      have hrows' : ∀ u ∈ us', g u.tp ≠ none := fun u hu => hrows u (hp.mem_iff.mp hu)
      rw [writeLoop_of_rows hrows, writeLoop_of_rows hrows']
      exact written_perm hp hagree g
    · rintro ⟨u, hu, v, hv, h1, h2, h3⟩
      obtain ⟨i, hi, _, _, hcol⟩ :=
        @lastWrite_index us u.tp u.col ⟨u, hu, rfl, rfl⟩
      have key : ∀ w ∈ us, w.tp = u.tp → w.col = u.col → w.color ≠ us[i].color →
          ∃ us', us'.Perm us ∧ (writeLoop us' g).squares ≠ (writeLoop us g).squares := by
        intro w hw hwtp hwcol hwc
        have hc : lastWrite us w.tp w.col = some us[i].color := by rw [hwtp, hwcol]; exact hcol
        obtain ⟨hp, hne⟩ := written_moved_last hw hc hwc (hrows w hw)
        have hrows' : ∀ x ∈ us.erase w ++ [w], g x.tp ≠ none :=
          fun x hx => hrows x (hp.mem_iff.mp hx)
        refine ⟨_, hp, ?_⟩
        rw [writeLoop_of_rows hrows, writeLoop_of_rows hrows']
        exact hne
      by_cases hcu : u.color = us[i].color
      · exact key v hv h1.symm h2.symm (fun h => h3 (hcu.trans h.symm))
      · exact key u hu rfl rfl hcu

/-- C10 on two updates of one square: the later colour stays. -/
theorem last_write_wins_witness :
    readSquare (writeLoop [⟨0, 1, "red"⟩, ⟨0, 1, "green"⟩] smallGrid).squares 0 1
      = .ok (some "green") := by
  have hrows : ∀ u ∈ ([⟨0, 1, "red"⟩, ⟨0, 1, "green"⟩] : List Update), smallGrid u.tp ≠ none := by
    intro u hu
    simp only [List.mem_cons, List.mem_singleton, List.not_mem_nil, or_false] at hu
    rcases hu with rfl | rfl <;> exact fun h => by cases h
  obtain ⟨i, hi, _, hmax, hread⟩ :=
    (last_write_wins [⟨0, 1, "red"⟩, ⟨0, 1, "green"⟩] smallGrid hrows).1 0 1
      ⟨⟨0, 1, "red"⟩, by simp, rfl, rfl⟩
  have h1 := hmax 1 (by decide) ⟨rfl, rfl⟩
  have hi' : i < 2 := hi
  have hone : i = 1 := by omega
  subst hone
  exact hread


/-! ## Reset, columns and rows -/

/-- C5: whatever clicks were handled on the initial grid, a Reset that runs
`initSquares` again on the same trace and columns publishes the grid that
`initSquares` produced at first, the one of the initialization law: root
colours in column 0, `"primary"` in every other column. -/
theorem reset_restores (sc : SquareColor) (md : MockData) (cs : ChangedSquares) :
    ∃ g0, initState sc md = .ok g0 ∧
      ∀ clicks : List Params,
        handleReset sc md (runClicks md cs clicks g0) = ⟨g0, none⟩ ∧
        ∀ (tp : Nat) (h : tp < md.explanations.length),
          (md.columns ≠ [] →
            readSquare (handleReset sc md (runClicks md cs clicks g0)).squares tp 0
              = .ok (some (sc (md.explanations[tp]).explanation.type))) ∧
          ∀ c : Nat, 0 < c → c < md.columns.length →
            readSquare (handleReset sc md (runClicks md cs clicks g0)).squares tp c
              = .ok (some "primary") := by
  refine ⟨_, initState_eq sc md, fun clicks => ?_⟩
  have hreset : handleReset sc md
      (runClicks md cs clicks (gridAfter sc md md.columns md.explanations.length))
        = ⟨gridAfter sc md md.columns md.explanations.length, none⟩ := by
    simp only [handleReset, initSquares_loop sc md md.columns _ (Nat.le_refl _)]
  refine ⟨hreset, fun tp h => ?_⟩
  rw [hreset]
  refine ⟨fun hcol => ?_, fun c hc hlt => ?_⟩
  · rw [readSquare_of_row (gridAfter_row sc md md.columns (Nat.le_refl _) h)]
    exact congrArg Except.ok (rowAfter_zero sc _ (List.length_pos.mpr hcol))
  · rw [readSquare_of_row (gridAfter_row sc md md.columns (Nat.le_refl _) h),
      rowAfter_pos sc _ hc hlt]

/-- C5 on the sample trace: after the click on row 5 has coloured square
`(3, 2)`, Reset makes it neutral again. -/
theorem reset_restores_witness :
    ∃ g0, initState sampleColor sampleData = .ok g0 ∧
      readSquare (runClicks sampleData sampleChanged [⟨⟨5, 5, 9⟩, "f0"⟩] g0) 3 2
        = .ok (some "red") ∧
      readSquare (handleReset sampleColor sampleData
        (runClicks sampleData sampleChanged [⟨⟨5, 5, 9⟩, "f0"⟩] g0)).squares 3 2
        = .ok (some "primary") := by
  obtain ⟨g0, hg0, h⟩ := reset_restores sampleColor sampleData sampleChanged
  have hg : g0 = sampleGrid :=
    Except.ok.inj (hg0.symm.trans (initState_eq sampleColor sampleData))
  refine ⟨g0, hg0, ?_, ((h [⟨⟨5, 5, 9⟩, "f0"⟩]).2 3 (by decide)).2 2 (by decide) (by decide)⟩
  rw [hg]
  rfl

theorem clickCell_sub (squares : Grid) (i : Nat) (d : ColDef)
    (hd : d.renderCell = some (renderSubCell squares i)) (params : Params) (g : Grid)
    (hrow : squares params.row.tp ≠ none) : clickCell d params g = .ok ⟨g, none⟩ := by
  cases hr : squares params.row.tp with
  | none => exact absurd hr hrow
  | some row =>
    simp only [clickCell, hd, renderSubCell, readSquare, hr]
    rfl

theorem clickCell_root (md : MockData) (cs : ChangedSquares) (squares : Grid) (d : ColDef)
    (hd : d.renderCell = some (renderRootCell md cs squares)) (params : Params) (g : Grid)
    (hrow : squares params.row.tp ≠ none) :
    clickCell d params g = .ok (handleClick md cs params params.row.tp params.field g) := by
  cases hr : squares params.row.tp with
  | none => exact absurd hr hrow
  | some row =>
    simp only [clickCell, hd, renderRootCell, readSquare, hr]
    rfl

theorem renderSubCell_onClick (squares : Grid) (i : Nat) (params : Params) (props : SquareProps)
    (h : renderSubCell squares i params = .ok props) : props.onClick = none := by
  simp only [renderSubCell, readSquare] at h
  cases hr : squares params.row.tp with
  | none => rw [hr] at h; cases h
  | some row => rw [hr] at h; cases h; rfl

theorem renderRootCell_onClick (md : MockData) (cs : ChangedSquares) (squares : Grid)
    (params : Params) (props : SquareProps)
    (h : renderRootCell md cs squares params = .ok props) :
    props.onClick = some (handleClick md cs params params.row.tp params.field) := by
  simp only [renderRootCell, readSquare] at h
  cases hr : squares params.row.tp with
  | none => rw [hr] at h; cases h
  | some row => rw [hr] at h; cases h; rfl

/-- C8: every descriptor of `dynamicColumns` renders its `Square` without an
`onClick`, so a click on a rendered cell of columns 1..N leaves the grid as it
is; of the three fixed descriptors, `tp` and `ts` render no `Square` at all,
and the root-formula one renders a `Square` whose `onClick` is `handleClick`
bound to the `tp` of the row. -/
theorem only_root_column_clicks (md : MockData) (cs : ChangedSquares) (squares : Grid) :
    (∀ d ∈ dynamicColumns md squares, ∃ i : Nat,
      d.renderCell = some (renderSubCell squares i) ∧
      (∀ params props, renderSubCell squares i params = .ok props → props.onClick = none) ∧
      ∀ params g, squares params.row.tp ≠ none → clickCell d params g = .ok ⟨g, none⟩) ∧
    (∀ fixed, fixedColumns md cs squares = .ok fixed →
      ∃ d0 d1 d2, fixed = [d0, d1, d2] ∧
        d0.renderCell = none ∧ d1.renderCell = none ∧
        (∀ params g, clickCell d0 params g = .ok ⟨g, none⟩ ∧
          clickCell d1 params g = .ok ⟨g, none⟩) ∧
        d2.renderCell = some (renderRootCell md cs squares) ∧
        (∀ params props, renderRootCell md cs squares params = .ok props →
          props.onClick = some (handleClick md cs params params.row.tp params.field)) ∧
        ∀ params g, squares params.row.tp ≠ none →
          clickCell d2 params g
            = .ok (handleClick md cs params params.row.tp params.field g)) ∧
    (md.columns ≠ [] → ∃ fixed, fixedColumns md cs squares = .ok fixed) := by
  refine ⟨?_, ?_, ?_⟩
  · intro d hd
    obtain ⟨i, _, rfl⟩ := List.mem_mapIdx.mp hd
    exact ⟨i, rfl, renderSubCell_onClick squares i,
      fun params g hrow => clickCell_sub squares i _ rfl params g hrow⟩
  · intro fixed hfixed
    unfold fixedColumns at hfixed
    cases hc : md.columns[0]? with
    | none => rw [hc] at hfixed; cases hfixed
    | some c0 =>
      rw [hc] at hfixed
      cases hfixed
      exact ⟨_, _, _, rfl, rfl, rfl, fun _ _ => ⟨rfl, rfl⟩, rfl,
        renderRootCell_onClick md cs squares,
        fun params g hrow => clickCell_root md cs squares _ rfl params g hrow⟩
  · intro hcol
    cases hcols : md.columns with
    | nil => exact absurd hcols hcol
    | cons c0 rest =>
      cases h : fixedColumns md cs squares with
      | ok fixed => exact ⟨fixed, rfl⟩
      | error err => simp [fixedColumns, hcols] at h

/-- C8 on the sample trace: a click on the cell of column `f2` in row 5
changes nothing. -/
theorem only_root_column_clicks_witness :
    ∃ d, (dynamicColumns sampleData sampleGrid)[1]? = some d ∧ d.field = "f2" ∧
      clickCell d ⟨⟨5, 5, 9⟩, "f2"⟩ sampleGrid = .ok ⟨sampleGrid, none⟩ := by
  refine ⟨_, rfl, rfl, ?_⟩
  obtain ⟨i, _, _, h⟩ := (only_root_column_clicks sampleData sampleChanged sampleGrid).1 _
    (@List.getElem?_mem _ (dynamicColumns sampleData sampleGrid) 1 _ rfl)
  exact h ⟨⟨5, 5, 9⟩, "f2"⟩ sampleGrid (fun hn => by cases hn)

/-- C9: on a trace whose entries carry their own index as `tp`, the click on
the root square of the row built from `explanations[i]` runs the write loop on
what `changedSquares` returns for `explanations[i].explanation`, and ends with
its exception when it throws. -/
theorem click_runs_own_root (md : MockData) (cs : ChangedSquares) (g : Grid)
    (hdense : ∀ (j : Nat) (hj : j < md.explanations.length), (md.explanations[j]).tp = j)
    (i : Nat) (hi : i < md.explanations.length) (field : String) :
    ∃ row, (rows md)[i]? = some row ∧ row.tp = i ∧
      index md.explanations row.tp = some md.explanations[i] ∧
      ∀ props, renderRootCell md cs g ⟨row, field⟩ = .ok props →
        clickSquare props g =
          match cs (md.explanations[i]).explanation md.subformulas with
          | .ok chSquares => writeLoop chSquares g
          | .error err => ⟨g, some err⟩ := by
  have hidx : index md.explanations (i : Int) = some md.explanations[i] := by
    rw [index_natCast, List.getElem?_eq_getElem hi]
  refine ⟨⟨i, (md.explanations[i]).tp, (md.explanations[i]).ts⟩, ?_, hdense i hi, ?_, ?_⟩
  · simp only [rows, List.getElem?_mapIdx, List.getElem?_eq_getElem hi, Option.map_some']
  · simp only [hdense i hi, hidx]
  · intro props hprops
    have hon := renderRootCell_onClick md cs g _ props hprops
    simp only [clickSquare, hon, handleClick, hdense i hi, hidx]
    cases cs (md.explanations[i]).explanation md.subformulas <;> rfl

/-- C9 on the sample trace: the click on the root square of row 5 writes the
updates that `changedSquares` returns for the root explanation of entry 5. -/
theorem click_runs_own_root_witness :
    ∃ row, (rows sampleData)[5]? = some row ∧
      ∃ props, renderRootCell sampleData sampleChanged sampleGrid ⟨row, "f0"⟩ = .ok props ∧
        clickSquare props sampleGrid = writeLoop [⟨3, 2, "red"⟩] sampleGrid := by
  obtain ⟨row, hrow, _, _, h⟩ := click_runs_own_root sampleData sampleChanged sampleGrid
    (fun j hj => by
      have hj' : j < 6 := hj
      interval_cases j <;> rfl)
    5 (by decide) "f0"
  have hr : row = ⟨5, 5, 9⟩ := Option.some.inj (hrow.symm.trans rfl)
  subst hr
  exact ⟨_, hrow, _, rfl, h _ rfl⟩

end TimeGrid
